import Mathlib

/-!
Verification of the pagination and caching core of the SAP Sales Cloud V2
OData proxy.

Shallow embedding of the repository's pagination engine and its collaborators:

* `src/constants.ts` — numeric limits (page size, offset ceiling, retry policy);
* `src/odata/keyset-pagination.ts` — skiptoken codec, keyset filter building and
  the pagination strategy selector;
* `src/odata/pagination-cache.ts` — page-boundary cache;
* the collection (flattening) cache for virtual entity sets;
* `src/odata/parser.ts` — OData query parsing;
* `src/utils/security.ts` — filter sanitization and keyset condition building;
* `src/salescloud/client.ts` — upstream URL building and retrying fetch.

The skiptoken codec, the strategy selector and the two caches are stubbed in
the repository (`throw new Error('Implementation not included - see README')`);
those definitions are modelled from the specification's words and are marked
`Modelled from the spec:` in their doc comments.  All other definitions are
translated from the TypeScript source.
-/

-- ═════════════════════════════════════════════════════════════════════════════
-- Constants (src/constants.ts)
-- ═════════════════════════════════════════════════════════════════════════════

/-- SC V2 returns a maximum of 999 records per request (src/constants.ts). -/
def SC_MAX_PAGE_SIZE : Nat := 999

/-- SC V2 does not allow native offsets at or beyond 10,000 (src/constants.ts). -/
def SC_MAX_SKIP : Nat := 10000

/-- Default page size when the client does not specify a page size (src/constants.ts). -/
def DEFAULT_PAGE_SIZE : Nat := SC_MAX_PAGE_SIZE

/-- Maximum page size clients may request (src/constants.ts). -/
def MAX_PAGE_SIZE : Nat := SC_MAX_PAGE_SIZE

/-- Maximum number of retries for upstream requests (src/constants.ts). -/
def SC_MAX_RETRIES : Nat := 2

/-- Base delay in milliseconds for exponential backoff (src/constants.ts). -/
def SC_RETRY_BASE_DELAY_MS : Nat := 500

/-- Maximum filter expression length (src/utils/security.ts, QUERY_LIMITS). -/
def MAX_FILTER_LENGTH : Nat := 4096

/-- Maximum select list length (src/utils/security.ts, QUERY_LIMITS). -/
def MAX_SELECT_LENGTH : Nat := 2048

/-- Maximum orderby expression length (src/utils/security.ts, QUERY_LIMITS). -/
def MAX_ORDERBY_LENGTH : Nat := 512

/-- Maximum skiptoken length (src/utils/security.ts, QUERY_LIMITS). -/
def MAX_SKIPTOKEN_LENGTH : Nat := 1024

/-- Modelled from the spec: the "allowed age window" for a skiptoken
(spec section 4.1); no numeric value appears in `src/constants.ts`, so the
window is fixed here as one hour of milliseconds.  The claim theorems are
parametric in time, so only the witnesses depend on the value. -/
def SKIPTOKEN_MAX_AGE_MS : Nat := 3600000

-- ═════════════════════════════════════════════════════════════════════════════
-- Skiptoken codec (src/odata/keyset-pagination.ts — stubbed, modelled from spec §4.1)
-- ═════════════════════════════════════════════════════════════════════════════

/-- Skiptoken payload (src/odata/keyset-pagination.ts, interface
`SkiptokenPayload`), extended with the issue timestamp that the implementation
embeds for expiration checking (spec section 4.1: `issuedAt=now`). -/
structure SkiptokenPayload where
  lastKey : String
  filter : Option String
  orderby : Option String
  issuedAt : Nat
deriving DecidableEq

/-- Canonical byte form of one string field: length-prefixed sequence of
character codes.  Part of the codec's canonical serialization
(spec section 4.1: "serialize ... to a canonical byte form"). -/
def serializeString (s : String) : List Nat :=
  s.data.length :: s.data.map Char.toNat

/-- Canonical byte form of an optional string field: tag byte then the field. -/
def serializeOpt : Option String → List Nat
  | none => [0]
  | some s => 1 :: serializeString s

/-- Modelled from the spec: canonical byte form of a `SkiptokenPayload`
(spec section 4.1 — the stubbed `encodeSkiptoken` serializes lastKey, filter,
orderby and the issue timestamp). -/
def serializePayload (p : SkiptokenPayload) : List Nat :=
  serializeString p.lastKey ++ (serializeOpt p.filter ++ (serializeOpt p.orderby ++ [p.issuedAt]))

/-- Strict parser for one length-prefixed string field. -/
def parseString : List Nat → Option (String × List Nat)
  | [] => none
  | len :: rest =>
    if len ≤ rest.length then
      some (String.mk ((rest.take len).map Char.ofNat), rest.drop len)
    else none

/-- Strict parser for one optional string field. -/
def parseOpt : List Nat → Option (Option String × List Nat)
  | [] => none
  | 0 :: rest => some (none, rest)
  | 1 :: rest =>
    match parseString rest with
    | none => none
    | some (s, r) => some (some s, r)
  | _ => none

/-- Modelled from the spec: strict payload parser — the payload is accepted
only if it is the canonical serialization of the parsed fields, so distinct
byte forms never decode to the same payload. -/
def parsePayload (l : List Nat) : Option SkiptokenPayload :=
  match parseString l with
  | none => none
  | some (k, r1) =>
    match parseOpt r1 with
    | none => none
    | some (f, r2) =>
      match parseOpt r2 with
      | none => none
      | some (o, r3) =>
        match r3 with
        | [t] =>
          if serializePayload { lastKey := k, filter := f, orderby := o, issuedAt := t } = l then
            some { lastKey := k, filter := f, orderby := o, issuedAt := t }
          else none
        | _ => none

/-- Modelled from the spec: the HMAC over the canonical byte form
(spec section 4.1: "compute an HMAC over it with `secret`").  The cryptographic
hash is idealized as a collision-free keyed tag: the secret, length-prefixed,
followed by the message.  This keeps the tamper-evidence property of an ideal
MAC while staying executable. -/
def mac (secret : String) (msg : List Nat) : List Nat :=
  serializeString secret ++ msg

/-- Modelled from the spec: the byte form of a complete token — the
length-prefixed payload followed by its signature ("an opaque string embedding
both payload and signature", spec section 4.1). -/
def tokenList (p : SkiptokenPayload) (secret : String) : List Nat :=
  (serializePayload p).length :: (serializePayload p ++ mac secret (serializePayload p))

/-- Character encoding of the token's byte form as an opaque string (the wire
format is implementation-defined per spec section 6; here each number is
written in unary followed by a separator, which keeps the encoding injective
and strictly decodable). -/
def encodeNatList : List Nat → List Char
  | [] => []
  | n :: l => List.replicate n '1' ++ ',' :: encodeNatList l

/-- Strict decoder for `encodeNatList`; the accumulator counts the current
run of unary digits. -/
def decodeNatListAux : List Char → Nat → Option (List Nat)
  | [], acc => if acc = 0 then some [] else none
  | c :: cs, acc =>
    if c = '1' then decodeNatListAux cs (acc + 1)
    else if c = ',' then
      match decodeNatListAux cs 0 with
      | none => none
      | some l => some (acc :: l)
    else none

/-- Strict decoder for the opaque token string. -/
def decodeNatList (cs : List Char) : Option (List Nat) :=
  decodeNatListAux cs 0

/-- Modelled from the spec: `encodeSkiptoken`
(src/odata/keyset-pagination.ts — stubbed).  Serializes
`{lastKey, filter, orderby, issuedAt=now}` to the canonical byte form, appends
the keyed tag computed with `secret`, and returns the opaque character string
embedding both payload and signature (spec section 4.1). -/
def encodeSkiptoken (lastKey : String) (filter orderby : Option String)
    (secret : String) (now : Nat) : List Char :=
  encodeNatList (tokenList { lastKey := lastKey, filter := filter, orderby := orderby, issuedAt := now } secret)

/-- Modelled from the spec: `decodeSkiptoken`
(src/odata/keyset-pagination.ts — stubbed).  Decodes the opaque string,
re-derives the signature over the extracted payload and compares it, checks
the age window, and returns `none` on any failure (spec section 4.1: "return
null (never throw) on any decoding failure, signature mismatch, or payload
older than the allowed age window").  `now` is the decoding time in
milliseconds. -/
def decodeSkiptoken (token : List Char) (secret : String) (now : Nat) :
    Option SkiptokenPayload :=
  match decodeNatList token with
  | none => none
  | some [] => none
  | some (n :: rest) =>
    if rest.drop n = mac secret (rest.take n) then
      match parsePayload (rest.take n) with
      | none => none
      | some p => if now - p.issuedAt ≤ SKIPTOKEN_MAX_AGE_MS then some p else none
    else none

-- ═════════════════════════════════════════════════════════════════════════════
-- Query parsing (src/odata/parser.ts, src/utils/security.ts)
-- ═════════════════════════════════════════════════════════════════════════════

/-- Value of one raw query parameter: a single string or an array of strings
(`Record<string, string | string[] | undefined>` in src/odata/parser.ts). -/
inductive QueryVal where
  | single (s : String)
  | multi (ss : List String)
deriving DecidableEq

/-- Raw query object passed to `parseODataQuery`: the eight `$`-parameters the
parser reads (the source never consults other keys). -/
structure RawQuery where
  select : Option QueryVal := none
  filter : Option QueryVal := none
  top : Option QueryVal := none
  skip : Option QueryVal := none
  orderby : Option QueryVal := none
  count : Option QueryVal := none
  expand : Option QueryVal := none
  skiptoken : Option QueryVal := none
deriving DecidableEq

/-- `getQueryParam` (src/odata/parser.ts): take the first element when the
value is an array (`undefined` when the array is empty). -/
def getQueryParam : Option QueryVal → Option String
  | none => none
  | some (.single s) => some s
  | some (.multi ss) => ss.head?

/-- JavaScript whitespace skipped by `parseInt` (the ASCII portion). -/
def isJsSpace (c : Char) : Bool :=
  c == ' ' || c == '\t' || c == '\n' || c == '\r' || c == Char.ofNat 11 || c == Char.ofNat 12

/-- Numeric value of a maximal leading run of decimal digits; `none` when the
run is empty (JavaScript `NaN`). -/
def digitsVal (cs : List Char) : Option Nat :=
  let ds := cs.takeWhile Char.isDigit
  if ds.isEmpty then none
  else some (ds.foldl (fun a c => 10 * a + (c.toNat - 48)) 0)

/-- JavaScript `parseInt(s, 10)`: skip leading whitespace, read an optional
sign, then a maximal run of decimal digits; `none` models `NaN`.  Numeric
values are modelled exactly (JavaScript float precision is idealized). -/
def jsParseInt (s : String) : Option Int :=
  match s.data.dropWhile isJsSpace with
  | '-' :: rest => (digitsVal rest).map (fun n => -(n : Int))
  | '+' :: rest => (digitsVal rest).map (fun n => (n : Int))
  | cs => (digitsVal cs).map (fun n => (n : Int))

/-- Parsed OData query options (src/salescloud/types.ts, `ODataQueryOptions`). -/
structure ODataQueryOptions where
  select : Option (List String) := none
  filter : Option String := none
  top : Option Int := none
  skip : Option Int := none
  orderby : Option String := none
  count : Option Bool := none
  expand : Option (List String) := none
  skiptoken : Option String := none
deriving DecidableEq

/-- `validateQueryLimits` (src/utils/security.ts): length limits on filter,
select, orderby and skiptoken; returns the error message on violation.
JavaScript UTF-16 lengths are modelled as character counts. -/
def validateQueryLimits (q : RawQuery) : Option String :=
  if (getQueryParam q.filter).elim false (fun f => decide (MAX_FILTER_LENGTH < f.length)) then
    some "filter exceeds maximum length"
  else if (getQueryParam q.select).elim false (fun s => decide (MAX_SELECT_LENGTH < s.length)) then
    some "select exceeds maximum length"
  else if (getQueryParam q.orderby).elim false (fun s => decide (MAX_ORDERBY_LENGTH < s.length)) then
    some "orderby exceeds maximum length"
  else if (getQueryParam q.skiptoken).elim false (fun s => decide (MAX_SKIPTOKEN_LENGTH < s.length)) then
    some "skiptoken exceeds maximum length"
  else none

/-- `parseODataQuery` (src/odata/parser.ts): validate limits, then parse the
eight query options; `Except.error` models the thrown validation error.
Empty strings are falsy in JavaScript, so an empty parameter takes the same
branch as an absent one. -/
def parseODataQuery (q : RawQuery) : Except String ODataQueryOptions :=
  match validateQueryLimits q with
  | some e => .error e
  | none =>
    .ok
      { select :=
          match getQueryParam q.select with
          | some s => if s = "" then none else some ((s.splitOn ",").map String.trim)
          | none => none
        filter :=
          match getQueryParam q.filter with
          | some f => if f = "" then none else some f
          | none => none
        top :=
          match getQueryParam q.top with
          | some s =>
            if s = "" then some (DEFAULT_PAGE_SIZE : Int)
            else
              match jsParseInt s with
              | some n => if 0 < n then some (min n (MAX_PAGE_SIZE : Int)) else none
              | none => none
          | none => some (DEFAULT_PAGE_SIZE : Int)
        skip :=
          match getQueryParam q.skip with
          | some s =>
            if s = "" then none
            else
              match jsParseInt s with
              | some n => if 0 ≤ n then some n else none
              | none => none
          | none => none
        orderby :=
          match getQueryParam q.orderby with
          | some s => if s = "" then none else some s
          | none => none
        count :=
          match getQueryParam q.count with
          | some c =>
            if c.toLower = "true" then some true
            else if c.toLower = "false" then some false
            else some true
          | none => some true
        expand :=
          match getQueryParam q.expand with
          | some s => if s = "" then none else some ((s.splitOn ",").map String.trim)
          | none => none
        skiptoken :=
          match getQueryParam q.skiptoken with
          | some s => if s = "" then none else some s
          | none => none }

-- ═════════════════════════════════════════════════════════════════════════════
-- Filter sanitization and keyset condition building (src/utils/security.ts)
-- ═════════════════════════════════════════════════════════════════════════════

/-- Occurrence of `sub` as a contiguous run at the head of `cs`. -/
def startsWithSeg : List Char → List Char → Bool
  | _, [] => true
  | [], _ :: _ => false
  | c :: cs, d :: ds => c == d && startsWithSeg cs ds

/-- Occurrence of `sub` as a contiguous run anywhere in `cs`. -/
def containsSeg : List Char → List Char → Bool
  | [], sub => sub.isEmpty
  | c :: cs, sub => startsWithSeg (c :: cs) sub || containsSeg cs sub

/-- Hexadecimal digit as matched case-insensitively by the hex-escape pattern
`[0-9a-f]` with the `i` flag. -/
def isHexDigitChar (c : Char) : Bool :=
  c.isDigit || decide ('a' ≤ c ∧ c ≤ 'f') || decide ('A' ≤ c ∧ c ≤ 'F')

/-- Occurrence of the pattern backslash–x–hexdigit–hexdigit, case-insensitive
(src/utils/security.ts, `DANGEROUS_FILTER_PATTERNS`). -/
def hasHexEscape : List Char → Bool
  | '\\' :: x :: a :: b :: rest =>
    ((x == 'x' || x == 'X') && isHexDigitChar a && isHexDigitChar b)
      || hasHexEscape (x :: a :: b :: rest)
  | _ :: cs => hasHexEscape cs
  | [] => false

/-- `isDangerousFreeString` (src/utils/security.ts): true when the value
contains none of the dangerous patterns — statement separator, SQL comment,
block comment delimiters, null byte, hex escape. -/
def isDangerousFreeString (value : String) : Bool :=
  !(containsSeg value.data [';'] || containsSeg value.data ['-', '-'] ||
    containsSeg value.data ['/', '*'] || containsSeg value.data ['*', '/'] ||
    containsSeg value.data [Char.ofNat 0] || hasHexEscape value.data)

/-- `isFilterContentSafe` (src/utils/security.ts). -/
def isFilterContentSafe (filter : String) : Bool :=
  isDangerousFreeString filter

/-- Result record of `sanitizeFilterValue` (src/utils/security.ts). -/
structure SanitizeResult where
  valid : Bool
  sanitized : String
  error : Option String
deriving DecidableEq

/-- Quote escaping `value.replace(/'/g, "''")`. -/
def escapeSingleQuotes : List Char → List Char
  | [] => []
  | c :: cs =>
    if c = '\'' then '\'' :: '\'' :: escapeSingleQuotes cs
    else c :: escapeSingleQuotes cs

/-- `sanitizeFilterValue` (src/utils/security.ts): reject dangerous patterns
and values longer than 100, escape single quotes.  JavaScript UTF-16 length is
modelled as character count. -/
def sanitizeFilterValue (value : String) : SanitizeResult :=
  if !isDangerousFreeString value then
    { valid := false, sanitized := "", error := some "Invalid characters in filter value" }
  else if 100 < value.length then
    { valid := false, sanitized := "", error := some "Filter value too long" }
  else
    { valid := true, sanitized := String.mk (escapeSingleQuotes value.data), error := none }

/-- Keyset comparison operator (`'gt' | 'lt'` in src/utils/security.ts). -/
inductive KeysetOp where
  | gt
  | lt
deriving DecidableEq

/-- Rendering of the operator inside the filter expression. -/
def keysetOpString : KeysetOp → String
  | .gt => "gt"
  | .lt => "lt"

/-- Field names accepted by `buildKeysetCondition`: the regular expression
`^[a-zA-Z_][a-zA-Z0-9_]*$` (src/utils/security.ts). -/
def isValidFieldName (s : String) : Bool :=
  match s.data with
  | [] => false
  | c :: cs => (c.isAlpha || c == '_') && cs.all (fun d => d.isAlphanum || d == '_')

/-- `buildKeysetCondition` (src/utils/security.ts): validate the field name,
sanitize the value and render the expression; `Except.error` models the thrown
errors. -/
def buildKeysetCondition (fieldName : String) (operator : KeysetOp) (value : String) :
    Except String String :=
  if !isValidFieldName fieldName then
    .error "Invalid field name for keyset pagination"
  else
    let r := sanitizeFilterValue value
    if !r.valid then
      .error (r.error.getD "Invalid value for keyset pagination")
    else
      .ok (fieldName ++ " " ++ keysetOpString operator ++ " '" ++ r.sanitized ++ "'")

/-- `combineFilters` (src/utils/security.ts): drop empty or blank filters,
parenthesize and join with `and`. -/
def combineFilters (filters : List String) : String :=
  let nonEmpty := filters.filter (fun f => !(f == "") && !(f.trim == ""))
  match nonEmpty with
  | [] => ""
  | [f] => f
  | fs => String.intercalate " and " (fs.map (fun f => "(" ++ f ++ ")"))

-- ═════════════════════════════════════════════════════════════════════════════
-- Keyset filter building and strategy selection (src/odata/keyset-pagination.ts)
-- ═════════════════════════════════════════════════════════════════════════════

/-- Entity definition (src/salescloud/types.ts, `EntityDefinition`) restricted
to the fields the pagination core consults. -/
structure EntityDefinition where
  name : String
  setName : String
  endpoint : String
  keyProperty : String
  scKeyProperty : String
deriving DecidableEq

/-- Modelled from the spec: `buildKeysetFilter`
(src/odata/keyset-pagination.ts — stubbed).  Builds the keyset continuation
condition `scKeyProperty gt 'lastKey'` through the safe builder and combines
it with the original filter using `and`; the safe builder's errors propagate
(source doc comment: "Safe filter construction (id gt 'lastKey'), combining
with original filter using 'and'"). -/
def buildKeysetFilter (scKeyProperty : String) (lastKey : String)
    (originalFilter : Option String) : Except String String :=
  match buildKeysetCondition scKeyProperty KeysetOp.gt lastKey with
  | .error e => .error e
  | .ok cond =>
    match originalFilter with
    | some f => .ok (combineFilters [f, cond])
    | none => .ok cond

/-- Modelled from the spec: `buildSkiptokenFilter`
(src/odata/keyset-pagination.ts — stubbed).  Re-validates the token's embedded
filter against the current injection rules (spec section 4.2 step 1, source
doc comment: "Re-validates the embedded filter against current security
rules") before building the keyset filter from the token's `lastKey`. -/
def buildSkiptokenFilter (decodedToken : SkiptokenPayload) (entity : EntityDefinition) :
    Except String String :=
  match decodedToken.filter with
  | some f =>
    if isFilterContentSafe f then
      buildKeysetFilter entity.scKeyProperty decodedToken.lastKey (some f)
    else .error "Embedded filter is no longer valid"
  | none => buildKeysetFilter entity.scKeyProperty decodedToken.lastKey none

/-- Pagination strategy result (src/odata/keyset-pagination.ts,
`PaginationStrategy`). -/
structure PaginationStrategy where
  useSkip : Bool
  skipValue : Option Nat := none
  keysetFilter : Option String := none
  error : Option String := none
deriving DecidableEq

/-- Error message for requests beyond the offset ceiling without a covering
boundary (spec section 4.2 step 5, error taxonomy (b)). -/
def paginationLimitExceededError : String := "pagination limit exceeded"

/-- Error message for invalid continuation tokens (error taxonomy (a)). -/
def invalidSkiptokenError : String := "invalid skiptoken"

/-- Modelled from the spec: strategy for a request with no usable boundary —
native offset below the ceiling, the pagination-limit error at or beyond it
(spec section 4.2 steps 3 and 5; decision-tree comment on the stubbed
`determinePaginationStrategy`). -/
def strategyWithoutBoundary (requestedSkip : Nat) : PaginationStrategy :=
  if requestedSkip < SC_MAX_SKIP then
    { useSkip := true, skipValue := some requestedSkip }
  else
    { useSkip := false, error := some paginationLimitExceededError }

/-- Modelled from the spec: `determinePaginationStrategy`
(src/odata/keyset-pagination.ts — stubbed).  Decision order from spec
section 4.2 and the source's decision-tree comment: (1) a supplied skiptoken
is decoded and used, an invalid one being a request error (taxonomy (a));
(2) offset zero is served as-is; (3/5) without a usable boundary, native
offset below the ceiling and the pagination-limit error at or beyond it;
(4/6) a boundary at a position at most the offset yields a keyset filter from
its key plus the residual `offset − boundaryPosition` as a native offset
(spec section 9: boundaries above the requested offset are not eligible).
`now` is the decoding time for the token age check. -/
def determinePaginationStrategy (requestedSkip : Nat) (skiptoken : Option (List Char))
    (cachedLastKey : Option String) (cachedPosition : Option Nat)
    (entity : EntityDefinition) (originalFilter : Option String)
    (secret : String) (now : Nat) : PaginationStrategy :=
  match skiptoken with
  | some tok =>
    match decodeSkiptoken tok secret now with
    | none => { useSkip := false, error := some invalidSkiptokenError }
    | some payload =>
      match buildSkiptokenFilter payload entity with
      | .ok f => { useSkip := false, keysetFilter := some f }
      | .error e => { useSkip := false, error := some e }
  | none =>
    if requestedSkip = 0 then
      { useSkip := true, skipValue := some 0 }
    else
      match cachedLastKey, cachedPosition with
      | some lastKey, some position =>
        if position ≤ requestedSkip then
          match buildKeysetFilter entity.scKeyProperty lastKey originalFilter with
          | .ok f =>
            { useSkip := false,
              skipValue :=
                if position < requestedSkip then some (requestedSkip - position) else none,
              keysetFilter := some f }
          | .error e => { useSkip := false, error := some e }
        else strategyWithoutBoundary requestedSkip
      | _, _ => strategyWithoutBoundary requestedSkip

/-- Modelled from the spec: the handler's control flow around the strategy
selector (spec section 2: upstream fetch only on cache miss; section 4.2
step 5: a failing request "never silently substitutes wrong data" and makes
no upstream call).  Returns the outcome and the number of upstream fetches
performed for the request. -/
def handleEntityRequest (requestedSkip : Nat) (skiptoken : Option (List Char))
    (cachedLastKey : Option String) (cachedPosition : Option Nat)
    (entity : EntityDefinition) (originalFilter : Option String)
    (secret : String) (now : Nat) : Except String PaginationStrategy × Nat :=
  let strategy := determinePaginationStrategy requestedSkip skiptoken cachedLastKey
    cachedPosition entity originalFilter secret now
  match strategy.error with
  | some e => (.error e, 0)
  | none => (.ok strategy, 1)

-- ═════════════════════════════════════════════════════════════════════════════
-- Pagination boundary cache (src/odata/pagination-cache.ts)
-- ═════════════════════════════════════════════════════════════════════════════

/-- Recorded page boundary (src/odata/pagination-cache.ts): at offset
`skipPosition` the last served record's key was `lastKey`. -/
structure PageBoundary where
  skipPosition : Nat
  lastKey : String
deriving DecidableEq

/-- One step of the boundary-lookup fold: keep the candidate with the greatest
position not exceeding the requested position. -/
def lbStep (skipPosition : Nat) (best : Option (String × Nat)) (b : PageBoundary) :
    Option (String × Nat) :=
  if b.skipPosition ≤ skipPosition then
    match best with
    | none => some (b.lastKey, b.skipPosition)
    | some (bestKey, bestPos) =>
      if bestPos < b.skipPosition then some (b.lastKey, b.skipPosition)
      else some (bestKey, bestPos)
  else best

/-- Modelled from the spec: `lookupPageBoundary`
(src/odata/pagination-cache.ts — stubbed).  Returns the recorded boundary with
the greatest position not exceeding the requested position (floor semantics),
or `none` when no such boundary exists (spec section 4.3; source doc comment:
"Finds the closest cached boundary <= skipPosition").  The entry's boundaries
are passed explicitly as the cache state for one cache key. -/
def lookupPageBoundary (boundaries : List PageBoundary) (skipPosition : Nat) :
    Option (String × Nat) :=
  boundaries.foldl (lbStep skipPosition) none

-- ═════════════════════════════════════════════════════════════════════════════
-- Collection (flattening) cache for virtual entity sets
-- ═════════════════════════════════════════════════════════════════════════════

/-- Collection cache entry (interface `CollectionCache` in the flattening
cache module), parametric in the record type. -/
structure CollectionEntry (α : Type) where
  data : List α
  totalCount : Nat
  fetchedAt : Nat
  fetchInProgress : Bool
  fetchComplete : Bool

/-- Modelled from the spec: `getCachedCollection` (stubbed in the flattening
cache module).  A read returns the in-memory slice `[skip, skip+top)` of the
flat list together with the total count only when the entry exists and its
background fetch is complete; otherwise `none` (spec section 4.5: reads are a
pure slice, "but only once complete"). -/
def getCachedCollection {α : Type} (entry : Option (CollectionEntry α))
    (skip top : Nat) : Option (List α × Nat) :=
  match entry with
  | none => none
  | some e =>
    if e.fetchComplete then some ((e.data.drop skip).take top, e.totalCount)
    else none

/-- Modelled from the spec: the request path for a flattened entity set
(spec sections 4.5 and 7(d)).  Serve from the cache when complete; otherwise
wait for completion with a timeout (`waitForCollectionCache`), with
`entryAfterWait` the entry's state when the wait returns; if it is still not
complete the request fails outright — partial flattened data is never
served. -/
def serveCollectionRequest {α : Type} (entryNow entryAfterWait : Option (CollectionEntry α))
    (skip top : Nat) : Except String (List α × Nat) :=
  match getCachedCollection entryNow skip top with
  | some r => .ok r
  | none =>
    match getCachedCollection entryAfterWait skip top with
    | some r => .ok r
    | none => .error "collection cache wait timeout"

-- ═════════════════════════════════════════════════════════════════════════════
-- Upstream client (src/salescloud/client.ts)
-- ═════════════════════════════════════════════════════════════════════════════

/-- Upstream query parameters (src/salescloud/types.ts, `ScQueryParams`). -/
structure ScQueryParams where
  select : Option String := none
  filter : Option String := none
  top : Option Int := none
  skip : Option Int := none
  orderby : Option String := none
  count : Option Bool := none
  expand : Option String := none
deriving DecidableEq

/-- `buildUrl` (src/salescloud/client.ts) modelled at the level of the query
parameters set on the URL, in execution order; the base-URL string rendering
is abstracted away.  The caller's `$count` field is never read; `$count=true`
is always set last ("Always request count for pagination"). -/
def buildUrl (params : ScQueryParams) : List (String × String) :=
  (match params.select with | some s => [("$select", s)] | none => []) ++
  (match params.filter with | some s => [("$filter", s)] | none => []) ++
  (match params.top with | some n => [("$top", toString n)] | none => []) ++
  (match params.skip with | some n => [("$skip", toString n)] | none => []) ++
  (match params.orderby with | some s => [("$orderby", s)] | none => []) ++
  (match params.expand with | some s => [("$expand", s)] | none => []) ++
  [("$count", "true")]

/-- Outcome of one upstream fetch attempt as observed by `fetchWithRetry`
(src/salescloud/client.ts): a successful response, a non-ok HTTP status, a
network error (`TypeError` from `fetch`), or the abort timeout. -/
inductive UpstreamOutcome where
  | success
  | httpError (status : Nat)
  | networkError
  | timeoutAbort
deriving DecidableEq

/-- Typed failures surfaced by `fetchWithRetry` (src/salescloud/client.ts):
the sanitized API error, the request timeout, and a network failure. -/
inductive FetchError where
  | apiError (status : Nat)
  | timeout
  | network
deriving DecidableEq

/-- Trace of one `fetchWithRetry` run: the final result, the number of fetch
attempts made, and the backoff delays (milliseconds) waited before retries,
in order. -/
structure FetchTrace where
  result : Except FetchError Unit
  attempts : Nat
  delays : List Nat

/-- Outcomes on which `fetchWithRetry` retries: HTTP 5xx and network errors
(src/salescloud/client.ts). -/
def isRetryableOutcome : UpstreamOutcome → Bool
  | .httpError status => decide (500 ≤ status)
  | .networkError => true
  | _ => false

/-- Typed error `fetchWithRetry` surfaces for one failing outcome. -/
def outcomeError : UpstreamOutcome → Option FetchError
  | .success => none
  | .httpError status => some (.apiError status)
  | .networkError => some FetchError.network
  | .timeoutAbort => some FetchError.timeout

/-- `fetchWithRetry` (src/salescloud/client.ts): retry on HTTP 5xx and on
network errors while `retryCount < SC_MAX_RETRIES`, sleeping
`2 ^ retryCount * SC_RETRY_BASE_DELAY_MS` before the retry; an abort timeout
or a non-5xx HTTP error is surfaced immediately.  `responses k` is the
outcome of the attempt made at retry count `k`; the recursion on `retryCount`
is bounded by the guard exactly as in the source. -/
def fetchWithRetry (responses : Nat → UpstreamOutcome) (retryCount : Nat) : FetchTrace :=
  match responses retryCount with
  | .success => { result := .ok (), attempts := 1, delays := [] }
  | .httpError status =>
    if h : 500 ≤ status ∧ retryCount < SC_MAX_RETRIES then
      { result := (fetchWithRetry responses (retryCount + 1)).result,
        attempts := (fetchWithRetry responses (retryCount + 1)).attempts + 1,
        delays := 2 ^ retryCount * SC_RETRY_BASE_DELAY_MS
          :: (fetchWithRetry responses (retryCount + 1)).delays }
    else { result := .error (.apiError status), attempts := 1, delays := [] }
  | .timeoutAbort => { result := .error FetchError.timeout, attempts := 1, delays := [] }
  | .networkError =>
    if h : retryCount < SC_MAX_RETRIES then
      { result := (fetchWithRetry responses (retryCount + 1)).result,
        attempts := (fetchWithRetry responses (retryCount + 1)).attempts + 1,
        delays := 2 ^ retryCount * SC_RETRY_BASE_DELAY_MS
          :: (fetchWithRetry responses (retryCount + 1)).delays }
    else { result := .error FetchError.network, attempts := 1, delays := [] }
termination_by SC_MAX_RETRIES - retryCount
decreasing_by
  · omega
  · omega

-- ═════════════════════════════════════════════════════════════════════════════
-- Codec lemmas
-- ═════════════════════════════════════════════════════════════════════════════

theorem parseString_append (s : String) (r : List Nat) :
    parseString (serializeString s ++ r) = some (s, r) := by
  simp only [serializeString, parseString, List.cons_append]
  rw [if_pos]
  · have htake : (s.data.map Char.toNat ++ r).take s.data.length = s.data.map Char.toNat := by
      rw [← List.length_map s.data Char.toNat]
      exact List.take_left _ _
    have hdrop : (s.data.map Char.toNat ++ r).drop s.data.length = r := by
      rw [← List.length_map s.data Char.toNat]
      exact List.drop_left _ _
    rw [htake, hdrop]
    simp [List.map_map, Function.comp_def, Char.ofNat_toNat]
  · rw [List.length_append, List.length_map]
    omega

theorem parseOpt_append (o : Option String) (r : List Nat) :
    parseOpt (serializeOpt o ++ r) = some (o, r) := by
  cases o with
  | none => simp [serializeOpt, parseOpt]
  | some s =>
    simp only [serializeOpt, parseOpt, List.cons_append, List.append_assoc]
    rw [parseString_append]

theorem parsePayload_serialize (p : SkiptokenPayload) :
    parsePayload (serializePayload p) = some p := by
  obtain ⟨k, f, o, t⟩ := p
  conv_lhs => rw [parsePayload]
  rw [show serializePayload ⟨k, f, o, t⟩ =
      serializeString k ++ (serializeOpt f ++ (serializeOpt o ++ [t])) from rfl]
  rw [parseString_append]
  simp [parseOpt_append, serializePayload]

theorem parsePayload_eq_some {l : List Nat} {p : SkiptokenPayload}
    (h : parsePayload l = some p) : serializePayload p = l := by
  unfold parsePayload at h
  split at h
  · exact absurd h (by simp)
  · split at h
    · exact absurd h (by simp)
    · split at h
      · exact absurd h (by simp)
      · split at h
        · split at h
          · rename_i heq
            obtain rfl : _ = p := Option.some_inj.mp h
            exact heq
          · exact absurd h (by simp)
        · exact absurd h (by simp)

theorem decodeNatListAux_replicate (n : Nat) (cs : List Char) (acc : Nat) :
    decodeNatListAux (List.replicate n '1' ++ cs) acc = decodeNatListAux cs (acc + n) := by
  induction n generalizing acc with
  | zero => simp
  | succ m ih =>
    rw [List.replicate_succ, List.cons_append]
    show decodeNatListAux ('1' :: _) acc = _
    rw [decodeNatListAux, if_pos rfl, ih (acc + 1)]
    have harith : acc + 1 + m = acc + (m + 1) := by omega
    rw [harith]

theorem decodeNatList_encode (l : List Nat) :
    decodeNatList (encodeNatList l) = some l := by
  induction l with
  | nil => rfl
  | cons n l ih =>
    unfold decodeNatList at ih ⊢
    rw [encodeNatList, decodeNatListAux_replicate]
    rw [decodeNatListAux]
    simp [ih]

theorem decodeNatListAux_sound (cs : List Char) : ∀ (acc : Nat) (l : List Nat),
    decodeNatListAux cs acc = some l →
    (∃ n l₂, l = (acc + n) :: l₂ ∧ cs = List.replicate n '1' ++ ',' :: encodeNatList l₂) ∨
      (l = [] ∧ acc = 0 ∧ cs = []) := by
  induction cs with
  | nil =>
    intro acc l h
    rw [decodeNatListAux] at h
    split at h
    · right
      refine ⟨(Option.some_inj.mp h).symm, by assumption, rfl⟩
    · exact absurd h (by simp)
  | cons c cs ih =>
    intro acc l h
    rw [decodeNatListAux] at h
    split at h
    · rename_i hc
      rcases ih (acc + 1) l h with ⟨n, l₂, hl, hcs⟩ | ⟨_, habs, _⟩
      · left
        refine ⟨n + 1, l₂, ?_, ?_⟩
        · rw [hl]; congr 1; omega
        · rw [hc, hcs, List.replicate_succ, List.cons_append]
      · omega
    · split at h
      · rename_i hc
        rcases hm : decodeNatListAux cs 0 with _ | l₂
        · rw [hm] at h; exact absurd h (by simp)
        · rw [hm] at h
          simp only [Option.some_inj] at h
          rcases ih 0 l₂ hm with ⟨n, l₃, hl₂, hcs⟩ | ⟨hl₂, _, hcs⟩
          · left
            refine ⟨0, l₂, ?_, ?_⟩
            · rw [← h, Nat.add_zero]
            · rw [hc, hcs, hl₂]
              simp [encodeNatList]
          · left
            refine ⟨0, l₂, ?_, ?_⟩
            · rw [← h, Nat.add_zero]
            · rw [hc, hcs, hl₂]
              simp [encodeNatList]
      · exact absurd h (by simp)

theorem decodeNatList_sound {cs : List Char} {l : List Nat}
    (h : decodeNatList cs = some l) : cs = encodeNatList l := by
  rcases decodeNatListAux_sound cs 0 l h with ⟨n, l₂, hl, hcs⟩ | ⟨hl, _, hcs⟩
  · rw [hcs, hl]
    simp [encodeNatList]
  · rw [hcs, hl]
    rfl

theorem count_comma_encodeNatList (l : List Nat) :
    (encodeNatList l).count ',' = l.length := by
  induction l with
  | nil => rfl
  | cons n l ih =>
    rw [encodeNatList, List.count_append, List.count_cons]
    simp [List.count_replicate, ih]

theorem mem_encodeNatList {c : Char} {l : List Nat} (h : c ∈ encodeNatList l) :
    c = '1' ∨ c = ',' := by
  induction l with
  | nil => simp [encodeNatList] at h
  | cons n l ih =>
    rw [encodeNatList] at h
    rcases List.mem_append.mp h with h | h
    · left; exact List.eq_of_mem_replicate h
    · rcases List.mem_cons.mp h with h | h
      · right; exact h
      · exact ih h

theorem count_set (a c' : Char) : ∀ (l : List Char) (i : Nat) (h : i < l.length),
    (l.set i c').count a + (if l.get ⟨i, h⟩ = a then 1 else 0)
      = l.count a + (if c' = a then 1 else 0) := by
  intro l
  induction l with
  | nil => intro i h; simp at h
  | cons b l ih =>
    intro i h
    cases i with
    | zero =>
      simp only [List.set, List.count_cons, List.get]
      by_cases hb : b = a <;> by_cases hc : c' = a <;>
        simp [hb, hc] <;> omega
    | succ j =>
      have hj : j < l.length := by simpa using h
      simp only [List.set, List.count_cons, List.get]
      have hrec := ih j hj
      simp only [List.get_eq_getElem] at hrec
      by_cases hb : b = a <;> simp [hb] <;> omega

theorem serializeString_length (s : String) :
    (serializeString s).length = s.data.length + 1 := by
  simp [serializeString]

theorem mac_length (secret : String) (m : List Nat) :
    (mac secret m).length = secret.data.length + 1 + m.length := by
  rw [mac, List.length_append, serializeString_length]

theorem tokenList_length (p : SkiptokenPayload) (secret : String) :
    (tokenList p secret).length
      = 2 + secret.data.length + 2 * (serializePayload p).length := by
  rw [tokenList, List.length_cons, List.length_append, mac_length]
  omega

theorem decode_some_shape {token : List Char} {secret : String} {now : Nat}
    {p : SkiptokenPayload} (h : decodeSkiptoken token secret now = some p) :
    ∃ l, decodeNatList token = some l ∧
      ∃ m, l.length = 2 + secret.data.length + 2 * m := by
  unfold decodeSkiptoken at h
  rcases hdec : decodeNatList token with _ | l
  · rw [hdec] at h; exact absurd h (by simp)
  · rw [hdec] at h
    rcases l with _ | ⟨n, rest⟩
    · exact absurd h (by simp)
    · refine ⟨n :: rest, rfl, n, ?_⟩
      replace h : (if rest.drop n = mac secret (rest.take n) then
          match parsePayload (rest.take n) with
          | none => none
          | some q => if now - q.issuedAt ≤ SKIPTOKEN_MAX_AGE_MS then some q else none
        else none) = some p := h
      split at h
      · rename_i hsig
        have hlen := congrArg List.length hsig
        rw [List.length_drop, mac_length, List.length_take] at hlen
        rcases Nat.le_total n rest.length with hle | hle
        · rw [Nat.min_eq_left hle] at hlen
          simp only [List.length_cons]
          omega
        · rw [Nat.min_eq_right hle] at hlen
          omega
      · exact absurd h (by simp)

theorem decodeSkiptoken_sound {token : List Char} {secret : String} {now : Nat}
    {p : SkiptokenPayload} (h : decodeSkiptoken token secret now = some p) :
    token = encodeNatList (tokenList p secret) ∧
      now - p.issuedAt ≤ SKIPTOKEN_MAX_AGE_MS := by
  unfold decodeSkiptoken at h
  rcases hdec : decodeNatList token with _ | l
  · rw [hdec] at h; exact absurd h (by simp)
  · rw [hdec] at h
    rcases l with _ | ⟨n, rest⟩
    · exact absurd h (by simp)
    · replace h : (if rest.drop n = mac secret (rest.take n) then
          match parsePayload (rest.take n) with
          | none => none
          | some q => if now - q.issuedAt ≤ SKIPTOKEN_MAX_AGE_MS then some q else none
        else none) = some p := h
      split at h
      · rename_i hsig
        rcases hpp : parsePayload (rest.take n) with _ | q
        · rw [hpp] at h; exact absurd h (by simp)
        · rw [hpp] at h
          replace h : (if now - q.issuedAt ≤ SKIPTOKEN_MAX_AGE_MS then some q else none)
              = some p := h
          rcases Nat.decLe (now - q.issuedAt) SKIPTOKEN_MAX_AGE_MS with hage | hage
          · rw [if_neg hage] at h
            exact absurd h (by simp)
          · rw [if_pos hage] at h
            obtain rfl : q = p := Option.some_inj.mp h
            have hser := parsePayload_eq_some hpp
            have hlen := congrArg List.length hsig
            rw [List.length_drop, mac_length, List.length_take] at hlen
            have hn : n ≤ rest.length := by
              rcases Nat.le_total n rest.length with hle | hle
              · exact hle
              · rw [Nat.min_eq_right hle] at hlen; omega
            have htl : (rest.take n).length = n := by
              rw [List.length_take, Nat.min_eq_left hn]
            have hrest : rest = serializePayload q ++ mac secret (serializePayload q) := by
              conv_lhs => rw [← List.take_append_drop n rest]
              rw [hsig, hser]
            have hplen : (serializePayload q).length = n := by
              rw [hser, htl]
            constructor
            · have htok : (n :: rest) = tokenList q secret := by
                rw [tokenList, hplen, hrest]
              rw [← htok]
              exact decodeNatList_sound hdec
            · exact hage
      · exact absurd h (by simp)

theorem decode_token_eval (p : SkiptokenPayload) (secret : String) (now : Nat) :
    decodeSkiptoken (encodeNatList (tokenList p secret)) secret now
      = if now - p.issuedAt ≤ SKIPTOKEN_MAX_AGE_MS then some p else none := by
  unfold decodeSkiptoken
  rw [decodeNatList_encode, tokenList]
  simp [List.take_left, List.drop_left, parsePayload_serialize]

theorem decodeSkiptoken_flip {p : SkiptokenPayload} {secret : String} {i : Nat} {c' : Char}
    (h : i < (encodeNatList (tokenList p secret)).length)
    (hne : c' ≠ (encodeNatList (tokenList p secret)).get ⟨i, h⟩) (now : Nat) :
    decodeSkiptoken ((encodeNatList (tokenList p secret)).set i c') secret now = none := by
  by_contra habs
  obtain ⟨p', hp'⟩ := Option.ne_none_iff_exists'.mp habs
  obtain ⟨l', hdec', m, hlen'⟩ := decode_some_shape hp'
  have hs' : (encodeNatList (tokenList p secret)).set i c' = encodeNatList l' :=
    decodeNatList_sound hdec'
  have hilt : i < ((encodeNatList (tokenList p secret)).set i c').length := by
    simpa using h
  have hget : ((encodeNatList (tokenList p secret)).set i c').get ⟨i, hilt⟩ = c' := by
    simp [List.get_eq_getElem]
  have hc'mem : c' ∈ encodeNatList l' := by
    have hm := List.get_mem ((encodeNatList (tokenList p secret)).set i c') i hilt
    rw [hget, hs'] at hm
    exact hm
  have hc'alpha := mem_encodeNatList hc'mem
  have holdalpha := mem_encodeNatList
    (List.get_mem (encodeNatList (tokenList p secret)) i h)
  have hcount := count_set ',' c' (encodeNatList (tokenList p secret)) i h
  have hcs : (encodeNatList (tokenList p secret)).count ',' = (tokenList p secret).length :=
    count_comma_encodeNatList _
  have hcs' : ((encodeNatList (tokenList p secret)).set i c').count ',' = l'.length := by
    rw [hs', count_comma_encodeNatList]
  have htllen := tokenList_length p secret
  rcases hc'alpha with hc1 | hc2 <;> rcases holdalpha with ho1 | ho2
  · exact hne (hc1.trans ho1.symm)
  · subst hc1
    rw [ho2] at hcount
    simp at hcount
    omega
  · subst hc2
    rw [ho1] at hcount
    simp at hcount
    omega
  · exact hne (hc2.trans ho2.symm)

-- ═════════════════════════════════════════════════════════════════════════════
-- Claim theorems: skiptoken codec (C1, C2)
-- ═════════════════════════════════════════════════════════════════════════════

/-- Claim C1: for every lastKey, optional filter, optional orderby and secret,
decoding the token produced by `encodeSkiptoken` with the same secret recovers
the original payload (lastKey, filter, orderby) exactly; and flipping any
single byte of the encoded token makes `decodeSkiptoken` return null. -/
theorem C1_skiptoken_roundtrip_and_tamper :
    (∀ (lastKey : String) (filter orderby : Option String) (secret : String) (now : Nat),
      decodeSkiptoken (encodeSkiptoken lastKey filter orderby secret now) secret now
        = some { lastKey := lastKey, filter := filter, orderby := orderby, issuedAt := now }) ∧
    (∀ (lastKey : String) (filter orderby : Option String) (secret : String) (now : Nat)
      (i : Nat) (c' : Char)
      (h : i < (encodeSkiptoken lastKey filter orderby secret now).length),
      c' ≠ (encodeSkiptoken lastKey filter orderby secret now).get ⟨i, h⟩ →
      ∀ later : Nat,
        decodeSkiptoken ((encodeSkiptoken lastKey filter orderby secret now).set i c')
          secret later = none) := by
  constructor
  · intro lastKey filter orderby secret now
    rw [encodeSkiptoken, decode_token_eval]
    simp
  · intro lastKey filter orderby secret now i c' h hne later
    exact decodeSkiptoken_flip
      (p := { lastKey := lastKey, filter := filter, orderby := orderby, issuedAt := now })
      h hne later

set_option maxRecDepth 40000 in
/-- Witness for C1 at a concrete payload, secret, flip position and byte. -/
theorem C1_skiptoken_roundtrip_and_tamper_witness :
    decodeSkiptoken (encodeSkiptoken "k" (some "f") none "s" 7) "s" 7
      = some { lastKey := "k", filter := some "f", orderby := none, issuedAt := 7 } ∧
    decodeSkiptoken ((encodeSkiptoken "k" (some "f") none "s" 7).set 2 'x') "s" 7 = none := by
  constructor
  · exact C1_skiptoken_roundtrip_and_tamper.1 "k" (some "f") none "s" 7
  · exact C1_skiptoken_roundtrip_and_tamper.2 "k" (some "f") none "s" 7 2 'x'
      (by decide) (by decide) 7

/-- Claim C2: `decodeSkiptoken` is a total function into an optional payload —
the model cannot throw — and it returns some payload only when the token is
the genuine signed encoding of that payload and its issue time is within the
allowed age window; in particular an expired genuine token yields null, so
every failure is indistinguishable from no token being supplied. -/
theorem C2_decode_null_on_failure :
    (∀ (token : List Char) (secret : String) (now : Nat) (p : SkiptokenPayload),
      decodeSkiptoken token secret now = some p →
        token = encodeSkiptoken p.lastKey p.filter p.orderby secret p.issuedAt ∧
          now - p.issuedAt ≤ SKIPTOKEN_MAX_AGE_MS) ∧
    (∀ (lastKey : String) (filter orderby : Option String) (secret : String)
      (issuedAt now : Nat), SKIPTOKEN_MAX_AGE_MS < now - issuedAt →
      decodeSkiptoken (encodeSkiptoken lastKey filter orderby secret issuedAt) secret now
        = none) := by
  constructor
  · intro token secret now p h
    obtain ⟨h1, h2⟩ := decodeSkiptoken_sound h
    exact ⟨h1, h2⟩
  · intro lastKey filter orderby secret issuedAt now h
    rw [encodeSkiptoken, decode_token_eval]
    show (if now - issuedAt ≤ SKIPTOKEN_MAX_AGE_MS then
        some (SkiptokenPayload.mk lastKey filter orderby issuedAt)
      else none) = none
    rw [if_neg (by omega)]

set_option maxRecDepth 40000 in
/-- Witness for C2: a genuine token decoded in time, and the same token
rejected after the age window has passed. -/
theorem C2_decode_null_on_failure_witness :
    (encodeSkiptoken "k" none none "s" 0
        = encodeSkiptoken "k" none none "s" 0 ∧ 0 - 0 ≤ SKIPTOKEN_MAX_AGE_MS) ∧
    decodeSkiptoken (encodeSkiptoken "k" none none "s" 0) "s" (SKIPTOKEN_MAX_AGE_MS + 1)
      = none := by
  constructor
  · exact C2_decode_null_on_failure.1 (encodeSkiptoken "k" none none "s" 0) "s" 0
      { lastKey := "k", filter := none, orderby := none, issuedAt := 0 } (by decide)
  · exact C2_decode_null_on_failure.2 "k" none none "s" 0 (SKIPTOKEN_MAX_AGE_MS + 1)
      (by decide)

-- ═════════════════════════════════════════════════════════════════════════════
-- Claim theorems: query parser (C6, C9)
-- ═════════════════════════════════════════════════════════════════════════════

/-- Claim C6: for every raw query accepted by `parseODataQuery`, the returned
`options.top` never exceeds 999; when `$top` parses to a positive integer `n`
the result is `min n 999`, and when `$top` is absent the result is the default
page size 999. -/
theorem C6_top_never_exceeds_max :
    ∀ (q : RawQuery) (o : ODataQueryOptions), parseODataQuery q = .ok o →
      (∀ n : Int, o.top = some n → n ≤ 999) ∧
      (getQueryParam q.top = none → o.top = some 999) ∧
      (∀ (s : String) (n : Int), getQueryParam q.top = some s → jsParseInt s = some n →
        0 < n → o.top = some (min n 999)) := by
  intro q o h
  unfold parseODataQuery at h
  split at h
  · exact absurd h (by simp)
  · injection h with h
    subst h
    refine ⟨?_, ?_, ?_⟩
    · intro n hn
      rcases ht : getQueryParam q.top with _ | s
      · simp only [ht] at hn
        simp [DEFAULT_PAGE_SIZE, SC_MAX_PAGE_SIZE] at hn
        omega
      · simp only [ht] at hn
        by_cases hs : s = ""
        · simp [hs, DEFAULT_PAGE_SIZE, SC_MAX_PAGE_SIZE] at hn
          omega
        · rcases hp : jsParseInt s with _ | m
          · simp [hs, hp] at hn
          · by_cases h0 : 0 < m
            · simp [hs, hp, h0, MAX_PAGE_SIZE, SC_MAX_PAGE_SIZE] at hn
              rw [← hn]
              exact min_le_right _ _
            · simp [hs, hp, h0] at hn
    · intro ht
      simp [ht, DEFAULT_PAGE_SIZE, SC_MAX_PAGE_SIZE]
    · intro s n ht hp h0
      by_cases hs : s = ""
      · subst hs
        rw [show jsParseInt "" = none from rfl] at hp
        exact absurd hp (by simp)
      · simp [ht, hs, hp, h0, MAX_PAGE_SIZE, SC_MAX_PAGE_SIZE]

/-- Witness for C6: a request for 1500 records is capped at min 1500 999. -/
theorem C6_top_never_exceeds_max_witness :
    ({ top := some 999, count := some true } : ODataQueryOptions).top
      = some (min (1500 : Int) 999) :=
  (C6_top_never_exceeds_max { top := some (QueryVal.single "1500") }
      { top := some 999, count := some true } (by rfl)).2.2
    "1500" 1500 (by decide) (by decide) (by decide)

/-- Counterexample to claim C9 as stated: `$top` present as the empty string
does not parse to a positive integer, yet `options.top` is set to the default
999 rather than left undefined — the empty string is falsy in JavaScript, so
`parseODataQuery` runs the absent-`$top` branch. -/
theorem C9_counterexample :
    getQueryParam ({ top := some (QueryVal.single "") } : RawQuery).top = some "" ∧
    jsParseInt "" = none ∧
    parseODataQuery { top := some (QueryVal.single "") }
      = .ok { top := some 999, count := some true } ∧
    some (999 : Int) ≠ (none : Option Int) := by
  refine ⟨rfl, rfl, by rfl, by simp⟩

/-- Claim C9 (amended): when `$top` is present with a non-empty (truthy) first
value that does not parse to a positive integer, `parseODataQuery` leaves
`options.top` undefined — neither the default page size nor any cap applies;
an empty-string `$top` instead behaves like the absent case and receives the
default. -/
theorem C9_invalid_top_left_undefined :
    ∀ (q : RawQuery) (o : ODataQueryOptions) (s : String), parseODataQuery q = .ok o →
      getQueryParam q.top = some s → s ≠ "" →
      (∀ n : Int, jsParseInt s = some n → n ≤ 0) →
      o.top = none := by
  intro q o s h ht hs hp
  unfold parseODataQuery at h
  split at h
  · exact absurd h (by simp)
  · injection h with h
    subst h
    rcases hjp : jsParseInt s with _ | m
    · simp [ht, hs, hjp]
    · have hm : ¬ (0 < m) := by
        have := hp m hjp
        omega
      simp [ht, hs, hjp, hm]

/-- Witness for C9 (amended) at the literal query `$top=0`. -/
theorem C9_invalid_top_left_undefined_witness :
    ({ count := some true } : ODataQueryOptions).top = none :=
  C9_invalid_top_left_undefined { top := some (QueryVal.single "0") }
    { count := some true } "0" (by rfl) (by rfl) (by decide)
    (fun n hn => by
      rw [show jsParseInt "0" = some 0 from rfl] at hn
      injection hn with hn
      omega)

-- ═════════════════════════════════════════════════════════════════════════════
-- Claim theorems: keyset condition building (C10)
-- ═════════════════════════════════════════════════════════════════════════════

/-- Claim C10: for every field name matching the identifier pattern and every
value of length at most 100 with no dangerous pattern, `buildKeysetCondition`
returns exactly `fieldName op 'sanitized'` with every single quote of the
value doubled; for every field name or value outside these preconditions it
throws, so no unsanitized client value reaches a keyset filter expression. -/
theorem C10_keyset_condition_safe :
    (∀ (fieldName : String) (operator : KeysetOp) (value : String),
      isValidFieldName fieldName = true → isDangerousFreeString value = true →
      value.length ≤ 100 →
      buildKeysetCondition fieldName operator value
        = .ok (fieldName ++ " " ++ keysetOpString operator ++ " '"
            ++ String.mk (escapeSingleQuotes value.data) ++ "'")) ∧
    (∀ (fieldName : String) (operator : KeysetOp) (value : String),
      isValidFieldName fieldName = false →
      ∀ r, buildKeysetCondition fieldName operator value ≠ .ok r) ∧
    (∀ (fieldName : String) (operator : KeysetOp) (value : String),
      (isDangerousFreeString value = false ∨ 100 < value.length) →
      ∀ r, buildKeysetCondition fieldName operator value ≠ .ok r) := by
  refine ⟨?_, ?_, ?_⟩
  · intro fieldName operator value hf hv hlen
    unfold buildKeysetCondition sanitizeFilterValue
    rw [hf, hv]
    have hnl : ¬ (100 < value.length) := by omega
    rw [if_neg hnl]
    rfl
  · intro fieldName operator value hf r
    unfold buildKeysetCondition
    rw [hf]
    simp
  · intro fieldName operator value hv r
    unfold buildKeysetCondition sanitizeFilterValue
    rcases hfv : isValidFieldName fieldName with _ | _
    · simp
    · rcases hv with hv | hv
      · rw [hv]
        simp
      · rcases hd : isDangerousFreeString value with _ | _
        · simp
        · rw [if_pos hv]
          simp

/-- Witness for C10: a value containing a quote is escaped, an invalid field
name is rejected, and a dangerous value is rejected. -/
theorem C10_keyset_condition_safe_witness :
    buildKeysetCondition "id" KeysetOp.gt "a'b"
      = .ok ("id" ++ " " ++ keysetOpString KeysetOp.gt ++ " '"
          ++ String.mk (escapeSingleQuotes "a'b".data) ++ "'") ∧
    buildKeysetCondition "1x" KeysetOp.gt "a" ≠ .ok "1x gt 'a'" ∧
    buildKeysetCondition "id" KeysetOp.lt "a;b" ≠ .ok "id lt 'a;b'" := by
  refine ⟨?_, ?_, ?_⟩
  · exact C10_keyset_condition_safe.1 "id" KeysetOp.gt "a'b" (by decide) (by decide) (by decide)
  · exact C10_keyset_condition_safe.2.1 "1x" KeysetOp.gt "a" (by decide) "1x gt 'a'"
  · exact C10_keyset_condition_safe.2.2 "id" KeysetOp.lt "a;b" (Or.inl (by decide)) "id lt 'a;b'"

-- ═════════════════════════════════════════════════════════════════════════════
-- Claim theorems: upstream URL building (C7)
-- ═════════════════════════════════════════════════════════════════════════════

/-- Claim C7: for every combination of query parameters — including when the
caller supplies no count flag or an explicit false — the parameter list built
by `buildUrl` carries exactly one `$count` binding and its value is `true`. -/
theorem C7_count_always_true :
    ∀ params : ScQueryParams,
      (buildUrl params).filter (fun kv => kv.1 == "$count") = [("$count", "true")] := by
  intro params
  obtain ⟨se, f, t, sk, o, c, e⟩ := params
  cases se <;> cases f <;> cases t <;> cases sk <;> cases o <;> cases e <;>
    simp [buildUrl]

-- ═════════════════════════════════════════════════════════════════════════════
-- Claim theorems: pagination strategy (C3, C4)
-- ═════════════════════════════════════════════════════════════════════════════

/-- Claim C3: a request with no skiptoken supplied, requested offset at or
beyond the upstream ceiling of 10,000, and no cached boundary, fails with the
pagination-limit-exceeded error and performs no upstream fetch. -/
theorem C3_limit_exceeded_no_fetch :
    ∀ (requestedSkip : Nat) (entity : EntityDefinition) (originalFilter : Option String)
      (secret : String) (now : Nat), SC_MAX_SKIP ≤ requestedSkip →
      handleEntityRequest requestedSkip none none none entity originalFilter secret now
        = (.error paginationLimitExceededError, 0) := by
  intro requestedSkip entity originalFilter secret now h
  have h0 : requestedSkip ≠ 0 := by
    intro h0
    rw [h0] at h
    exact absurd h (by decide)
  unfold handleEntityRequest determinePaginationStrategy strategyWithoutBoundary
  rw [if_neg h0, if_neg (Nat.not_lt.mpr h)]

/-- Witness for C3: the spec's Scenario B, offset 15000 on a cold cache. -/
theorem C3_limit_exceeded_no_fetch_witness :
    handleEntityRequest 15000 none none none
      { name := "Account", setName := "Accounts",
        endpoint := "/sap/c4c/api/v1/account-service/accounts",
        keyProperty := "accountId", scKeyProperty := "id" }
      none "s" 0 = (.error paginationLimitExceededError, 0) :=
  C3_limit_exceeded_no_fetch 15000
    { name := "Account", setName := "Accounts",
      endpoint := "/sap/c4c/api/v1/account-service/accounts",
      keyProperty := "accountId", scKeyProperty := "id" }
    none "s" 0 (by decide)

theorem lookup_foldl_mem (skipPosition : Nat) :
    ∀ (bs : List PageBoundary) (acc : Option (String × Nat)) (k : String) (pos : Nat),
      bs.foldl (lbStep skipPosition) acc = some (k, pos) →
        (pos ≤ skipPosition ∧ ({ skipPosition := pos, lastKey := k } : PageBoundary) ∈ bs)
          ∨ acc = some (k, pos) := by
  intro bs
  induction bs with
  | nil =>
    intro acc k pos h
    right
    exact h
  | cons b bs ih =>
    intro acc k pos h
    rw [List.foldl_cons] at h
    rcases ih (lbStep skipPosition acc b) k pos h with ⟨hle, hmem⟩ | hacc
    · left
      exact ⟨hle, List.mem_cons_of_mem _ hmem⟩
    · unfold lbStep at hacc
      split at hacc
      · rename_i hb
        rcases acc with _ | ⟨bk, bp⟩
        · obtain ⟨hk, hp⟩ : b.lastKey = k ∧ b.skipPosition = pos := by
            have := Option.some_inj.mp hacc
            exact ⟨congrArg Prod.fst this, congrArg Prod.snd this⟩
          left
          refine ⟨hp ▸ hb, ?_⟩
          have hbeq : ({ skipPosition := pos, lastKey := k } : PageBoundary) = b := by
            rw [← hk, ← hp]
          rw [hbeq]
          exact List.mem_cons_self _ _
        · replace hacc : (if bp < b.skipPosition then some (b.lastKey, b.skipPosition)
              else some (bk, bp)) = some (k, pos) := hacc
          split at hacc
          · obtain ⟨hk, hp⟩ : b.lastKey = k ∧ b.skipPosition = pos := by
              have := Option.some_inj.mp hacc
              exact ⟨congrArg Prod.fst this, congrArg Prod.snd this⟩
            left
            refine ⟨hp ▸ hb, ?_⟩
            have hbeq : ({ skipPosition := pos, lastKey := k } : PageBoundary) = b := by
              rw [← hk, ← hp]
            rw [hbeq]
            exact List.mem_cons_self _ _
          · right
            exact hacc
      · right
        exact hacc

theorem lbStep_mono (skipPosition : Nat) (k : String) (pos : Nat) (b : PageBoundary) :
    ∃ k1 pos1, lbStep skipPosition (some (k, pos)) b = some (k1, pos1) ∧ pos ≤ pos1 := by
  by_cases hble : b.skipPosition ≤ skipPosition
  · by_cases hlt : pos < b.skipPosition
    · exact ⟨b.lastKey, b.skipPosition, by simp [lbStep, hble, hlt], by omega⟩
    · exact ⟨k, pos, by simp [lbStep, hble, hlt], Nat.le_refl _⟩
  · exact ⟨k, pos, by simp [lbStep, hble], Nat.le_refl _⟩

theorem lbStep_covers (skipPosition : Nat) (acc : Option (String × Nat)) (b : PageBoundary)
    (hble : b.skipPosition ≤ skipPosition) :
    ∃ k1 pos1, lbStep skipPosition acc b = some (k1, pos1) ∧ b.skipPosition ≤ pos1 := by
  rcases acc with _ | ⟨bk, bp⟩
  · exact ⟨b.lastKey, b.skipPosition, by simp [lbStep, hble], Nat.le_refl _⟩
  · by_cases hlt : bp < b.skipPosition
    · exact ⟨b.lastKey, b.skipPosition, by simp [lbStep, hble, hlt], Nat.le_refl _⟩
    · exact ⟨bk, bp, by simp [lbStep, hble, hlt], by omega⟩

theorem lookup_foldl_mono (skipPosition : Nat) :
    ∀ (bs : List PageBoundary) (acc : Option (String × Nat)) (k : String) (pos : Nat),
      acc = some (k, pos) →
      ∃ k2 pos2, bs.foldl (lbStep skipPosition) acc = some (k2, pos2) ∧ pos ≤ pos2 := by
  intro bs
  induction bs with
  | nil =>
    intro acc k pos h
    exact ⟨k, pos, h, Nat.le_refl _⟩
  | cons b bs ih =>
    intro acc k pos h
    rw [List.foldl_cons]
    subst h
    rcases lbStep_mono skipPosition k pos b with ⟨k1, pos1, hs, hle⟩
    rw [hs]
    rcases ih (some (k1, pos1)) k1 pos1 rfl with ⟨k2, pos2, hres, hle2⟩
    exact ⟨k2, pos2, hres, by omega⟩

theorem lookup_foldl_ge (skipPosition : Nat) :
    ∀ (bs : List PageBoundary) (acc : Option (String × Nat)) (b : PageBoundary),
      b ∈ bs → b.skipPosition ≤ skipPosition →
      ∃ k2 pos2, bs.foldl (lbStep skipPosition) acc = some (k2, pos2)
        ∧ b.skipPosition ≤ pos2 := by
  intro bs
  induction bs with
  | nil =>
    intro acc b hmem
    exact absurd hmem (List.not_mem_nil b)
  | cons hd bs ih =>
    intro acc b hmem hble
    rw [List.foldl_cons]
    rcases List.mem_cons.mp hmem with rfl | hmem
    · rcases lbStep_covers skipPosition acc b hble with ⟨k1, pos1, hs, hle1⟩
      rw [hs]
      rcases lookup_foldl_mono skipPosition bs (some (k1, pos1)) k1 pos1 rfl
        with ⟨k2, pos2, hres, hle2⟩
      exact ⟨k2, pos2, hres, by omega⟩
    · exact ih (lbStep skipPosition acc hd) b hmem hble

theorem lookupPageBoundary_floor (boundaries : List PageBoundary) (skipPosition : Nat) :
    (∀ (k : String) (pos : Nat), lookupPageBoundary boundaries skipPosition = some (k, pos) →
      pos ≤ skipPosition ∧ ({ skipPosition := pos, lastKey := k } : PageBoundary) ∈ boundaries ∧
        ∀ b ∈ boundaries, b.skipPosition ≤ skipPosition → b.skipPosition ≤ pos) ∧
    (lookupPageBoundary boundaries skipPosition = none →
      ∀ b ∈ boundaries, ¬ b.skipPosition ≤ skipPosition) := by
  constructor
  · intro k pos h
    rcases lookup_foldl_mem skipPosition boundaries none k pos h with ⟨hle, hmem⟩ | habs
    · refine ⟨hle, hmem, ?_⟩
      intro b hb hble
      rcases lookup_foldl_ge skipPosition boundaries none b hb hble with ⟨k2, pos2, hres, hge⟩
      rw [lookupPageBoundary] at h
      rw [h] at hres
      obtain hp : pos = pos2 := congrArg Prod.snd (Option.some_inj.mp hres)
      omega
    · exact absurd habs (by simp)
  · intro h b hb hble
    rcases lookup_foldl_ge skipPosition boundaries none b hb hble with ⟨k2, pos2, hres, _⟩
    rw [lookupPageBoundary] at h
    rw [h] at hres
    exact absurd hres (by simp)

/-- Counterexample to claim C4 as stated: with a recorded boundary at
position 0 and requested offset 0 the boundary exists at a position not
exceeding the offset (the lookup returns it), yet the strategy selector takes
the offset-zero branch and builds no keyset filter; and with an eligible
boundary whose key fails sanitization (here a key containing a statement
separator) the selector returns an error instead of a keyset filter. -/
theorem C4_counterexample :
    lookupPageBoundary [{ skipPosition := 0, lastKey := "K" }] 0 = some ("K", 0) ∧
    (determinePaginationStrategy 0 none (some "K") (some 0)
        { name := "Account", setName := "Accounts",
          endpoint := "/sap/c4c/api/v1/account-service/accounts",
          keyProperty := "accountId", scKeyProperty := "id" }
        none "s" 0).keysetFilter = none ∧
    (determinePaginationStrategy 5 none (some "K;") (some 2)
        { name := "Account", setName := "Accounts",
          endpoint := "/sap/c4c/api/v1/account-service/accounts",
          keyProperty := "accountId", scKeyProperty := "id" }
        none "s" 0).keysetFilter = none := by
  refine ⟨by rfl, by rfl, by rfl⟩

/-- Claim C4 (amended): `lookupPageBoundary` returns the recorded boundary
with the greatest skipPosition not exceeding the requested offset, or null
when none exists; and for a positive requested offset with no skiptoken
supplied, when such a boundary is supplied and its key passes keyset-filter
sanitization, `determinePaginationStrategy` builds the keyset filter from the
boundary's key, applying a residual native offset of exactly
offset − boundaryPosition when the boundary's position is strictly less than
the requested offset and no residual otherwise. -/
theorem C4_floor_lookup_and_residual :
    (∀ (boundaries : List PageBoundary) (skipPosition : Nat),
      (∀ (k : String) (pos : Nat),
        lookupPageBoundary boundaries skipPosition = some (k, pos) →
          pos ≤ skipPosition ∧
            ({ skipPosition := pos, lastKey := k } : PageBoundary) ∈ boundaries ∧
            ∀ b ∈ boundaries, b.skipPosition ≤ skipPosition → b.skipPosition ≤ pos) ∧
      (lookupPageBoundary boundaries skipPosition = none →
        ∀ b ∈ boundaries, ¬ b.skipPosition ≤ skipPosition)) ∧
    (∀ (requestedSkip : Nat) (lastKey : String) (position : Nat)
      (entity : EntityDefinition) (originalFilter : Option String)
      (secret : String) (now : Nat) (f : String),
      0 < requestedSkip → position ≤ requestedSkip →
      buildKeysetFilter entity.scKeyProperty lastKey originalFilter = .ok f →
      determinePaginationStrategy requestedSkip none (some lastKey) (some position)
          entity originalFilter secret now
        = { useSkip := false,
            skipValue :=
              if position < requestedSkip then some (requestedSkip - position) else none,
            keysetFilter := some f, error := none }) := by
  constructor
  · exact fun boundaries skipPosition => lookupPageBoundary_floor boundaries skipPosition
  · intro requestedSkip lastKey position entity originalFilter secret now f h0 hle hbf
    have hne0 : ¬ (requestedSkip = 0) := by omega
    simp only [determinePaginationStrategy]
    rw [if_neg hne0, if_pos hle, hbf]

/-- Witness for C4 (amended): the spec's Scenario C — a boundary recorded at
position 14000 with key K and a request at offset 15000 yield the keyset
filter from K plus the residual native offset 1000. -/
theorem C4_floor_lookup_and_residual_witness :
    (14000 ≤ 15000 ∧
      ({ skipPosition := 14000, lastKey := "K" } : PageBoundary)
        ∈ [({ skipPosition := 14000, lastKey := "K" } : PageBoundary)] ∧
      ∀ b ∈ [({ skipPosition := 14000, lastKey := "K" } : PageBoundary)],
        b.skipPosition ≤ 15000 → b.skipPosition ≤ 14000) ∧
    determinePaginationStrategy 15000 none (some "K") (some 14000)
        { name := "Account", setName := "Accounts",
          endpoint := "/sap/c4c/api/v1/account-service/accounts",
          keyProperty := "accountId", scKeyProperty := "id" }
        none "s" 0
      = { useSkip := false,
          skipValue := if 14000 < 15000 then some (15000 - 14000) else none,
          keysetFilter := some "id gt 'K'", error := none } := by
  constructor
  · exact (C4_floor_lookup_and_residual.1
      [{ skipPosition := 14000, lastKey := "K" }] 15000).1 "K" 14000 (by rfl)
  · exact C4_floor_lookup_and_residual.2 15000 "K" 14000
      { name := "Account", setName := "Accounts",
        endpoint := "/sap/c4c/api/v1/account-service/accounts",
        keyProperty := "accountId", scKeyProperty := "id" }
      none "s" 0 "id gt 'K'" (by decide) (by decide) (by rfl)

-- ═════════════════════════════════════════════════════════════════════════════
-- Claim theorems: collection (flattening) cache (C5)
-- ═════════════════════════════════════════════════════════════════════════════

/-- Claim C5: a collection-cache read returns data only when the entry is
marked complete — `getCachedCollection` never returns a slice of a
still-growing list; a request whose wait for completion times out (the entry
is still incomplete afterwards) fails outright rather than serving partial
flattened data; and once complete, the slice reads `[0, 100)` and `[100, 200)`
are disjoint, contiguous and order-preserving: their concatenation is exactly
the first 200 elements of the flattened list. -/
theorem C5_collection_complete_only :
    (∀ (α : Type) (entry : Option (CollectionEntry α)) (skip top : Nat)
      (r : List α × Nat), getCachedCollection entry skip top = some r →
        ∃ e, entry = some e ∧ e.fetchComplete = true ∧
          r = ((e.data.drop skip).take top, e.totalCount)) ∧
    (∀ (α : Type) (entryNow entryAfterWait : Option (CollectionEntry α)) (skip top : Nat),
      (∀ e, entryNow = some e → e.fetchComplete = false) →
      (∀ e, entryAfterWait = some e → e.fetchComplete = false) →
      serveCollectionRequest entryNow entryAfterWait skip top
        = .error "collection cache wait timeout") ∧
    (∀ (α : Type) (e : CollectionEntry α), e.fetchComplete = true →
      getCachedCollection (some e) 0 100 = some (e.data.take 100, e.totalCount) ∧
      getCachedCollection (some e) 100 100 = some ((e.data.drop 100).take 100, e.totalCount) ∧
      e.data.take 100 ++ (e.data.drop 100).take 100 = e.data.take 200) := by
  refine ⟨?_, ?_, ?_⟩
  · intro α entry skip top r h
    rcases entry with _ | e
    · exact absurd h (by simp [getCachedCollection])
    · rcases hc : e.fetchComplete with _ | _
      · rw [getCachedCollection, if_neg (by simp [hc])] at h
        exact absurd h (by simp)
      · rw [getCachedCollection, if_pos hc] at h
        exact ⟨e, rfl, hc, (Option.some_inj.mp h).symm⟩
  · intro α entryNow entryAfterWait skip top h1 h2
    have hnone : ∀ (entry : Option (CollectionEntry α)),
        (∀ e, entry = some e → e.fetchComplete = false) →
        getCachedCollection entry skip top = none := by
      intro entry h
      rcases entry with _ | e
      · rfl
      · rw [getCachedCollection, if_neg (by simp [h e rfl])]
    unfold serveCollectionRequest
    rw [hnone entryNow h1, hnone entryAfterWait h2]
  · intro α e hc
    refine ⟨?_, ?_, ?_⟩
    · rw [getCachedCollection, if_pos hc, List.drop_zero]
    · rw [getCachedCollection, if_pos hc]
    · have h200 : (200 : Nat) = 100 + 100 := by norm_num
      rw [h200, List.take_add]

/-- Witness for C5 at a complete three-element cache entry and an incomplete
entry that stays incomplete across the wait.  The entry fields are data,
totalCount, fetchedAt, fetchInProgress, fetchComplete. -/
theorem C5_collection_complete_only_witness :
    (∃ e, some (CollectionEntry.mk [10, 20, 30] 3 0 false true) = some e ∧
        e.fetchComplete = true ∧
        ([10, 20], 3) = ((e.data.drop 0).take 2, e.totalCount)) ∧
    serveCollectionRequest
        (some (CollectionEntry.mk [10] 1 0 true false))
        (some (CollectionEntry.mk [10, 20] 2 0 true false))
        0 100
      = .error "collection cache wait timeout" ∧
    ([10, 20, 30] : List Nat).take 100 ++ (([10, 20, 30] : List Nat).drop 100).take 100
      = ([10, 20, 30] : List Nat).take 200 := by
  refine ⟨?_, ?_, ?_⟩
  · exact C5_collection_complete_only.1 Nat
      (some (CollectionEntry.mk [10, 20, 30] 3 0 false true)) 0 2 ([10, 20], 3) (by rfl)
  · exact C5_collection_complete_only.2.1 Nat
      (some (CollectionEntry.mk [10] 1 0 true false))
      (some (CollectionEntry.mk [10, 20] 2 0 true false))
      0 100
      (fun e he => by
        injection he with he
        rw [← he])
      (fun e he => by
        injection he with he
        rw [← he])
  · exact (C5_collection_complete_only.2.2 Nat
      (CollectionEntry.mk [10, 20, 30] 3 0 false true) (by rfl)).2.2

-- ═════════════════════════════════════════════════════════════════════════════
-- Claim theorems: retrying upstream fetch (C8)
-- ═════════════════════════════════════════════════════════════════════════════

theorem range_map_shift (f : Nat → Nat) (n : Nat) :
    f 0 :: (List.range n).map (fun k => f (k + 1)) = (List.range (n + 1)).map f := by
  rw [List.range_succ_eq_map, List.map_cons, List.map_map]
  rfl

theorem fetchWithRetry_spec (responses : Nat → UpstreamOutcome) :
    ∀ (gas rc : Nat), SC_MAX_RETRIES - rc < gas → rc ≤ SC_MAX_RETRIES →
      1 ≤ (fetchWithRetry responses rc).attempts ∧
      rc + (fetchWithRetry responses rc).attempts ≤ SC_MAX_RETRIES + 1 ∧
      (∀ k, k + 1 < (fetchWithRetry responses rc).attempts →
        isRetryableOutcome (responses (rc + k)) = true) ∧
      ((fetchWithRetry responses rc).delays
        = (List.range ((fetchWithRetry responses rc).attempts - 1)).map
            (fun k => 2 ^ (rc + k) * SC_RETRY_BASE_DELAY_MS)) ∧
      ((fetchWithRetry responses rc).result = .ok () →
        responses (rc + ((fetchWithRetry responses rc).attempts - 1)) = .success) ∧
      (∀ e, (fetchWithRetry responses rc).result = .error e →
        outcomeError (responses (rc + ((fetchWithRetry responses rc).attempts - 1))) = some e ∧
          (rc + (fetchWithRetry responses rc).attempts = SC_MAX_RETRIES + 1 ∨
            isRetryableOutcome (responses (rc + ((fetchWithRetry responses rc).attempts - 1)))
              = false)) := by
  intro gas
  induction gas with
  | zero =>
    intro rc h
    omega
  | succ g ih =>
    intro rc hgas hrc
    rw [fetchWithRetry]
    cases hr : responses rc with
    | success =>
      dsimp only
      refine ⟨by omega, by omega, ?_, by simp, ?_, ?_⟩
      · intro k hk
        exact absurd hk (by omega)
      · intro _
        simpa using hr
      · intro e he
        exact absurd he (by simp)
    | httpError status =>
      dsimp only
      by_cases hcond : 500 ≤ status ∧ rc < SC_MAX_RETRIES
      · rw [dif_pos hcond]
        dsimp only
        obtain ⟨ih1, ih2, ih3, ih4, ih5, ih6⟩ := ih (rc + 1) (by omega) (by omega)
        refine ⟨by omega, by omega, ?_, ?_, ?_, ?_⟩
        · intro k hk
          cases k with
          | zero =>
            simp [hr, isRetryableOutcome, hcond.1]
          | succ j =>
            have := ih3 j (by omega)
            have hidx : rc + 1 + j = rc + (j + 1) := by omega
            rw [hidx] at this
            exact this
        · rw [ih4]
          have ha : (fetchWithRetry responses (rc + 1)).attempts + 1 - 1
              = ((fetchWithRetry responses (rc + 1)).attempts - 1) + 1 := by omega
          rw [ha]
          rw [show (2 : Nat) ^ rc * SC_RETRY_BASE_DELAY_MS
              = 2 ^ (rc + 0) * SC_RETRY_BASE_DELAY_MS from by rw [Nat.add_zero]]
          rw [show (fun k => 2 ^ (rc + 1 + k) * SC_RETRY_BASE_DELAY_MS)
              = (fun k => 2 ^ (rc + (k + 1)) * SC_RETRY_BASE_DELAY_MS) from
            funext fun k => by rw [show rc + 1 + k = rc + (k + 1) from by omega]]
          exact range_map_shift (fun k => 2 ^ (rc + k) * SC_RETRY_BASE_DELAY_MS) _
        · intro hok
          have := ih5 hok
          have hidx : rc + ((fetchWithRetry responses (rc + 1)).attempts + 1 - 1)
              = rc + 1 + ((fetchWithRetry responses (rc + 1)).attempts - 1) := by omega
          rw [hidx]
          exact this
        · intro e he
          obtain ⟨he1, he2⟩ := ih6 e he
          have hidx : rc + ((fetchWithRetry responses (rc + 1)).attempts + 1 - 1)
              = rc + 1 + ((fetchWithRetry responses (rc + 1)).attempts - 1) := by omega
          rw [hidx]
          refine ⟨he1, ?_⟩
          rcases he2 with he2 | he2
          · left; omega
          · right; exact he2
      · rw [dif_neg hcond]
        dsimp only
        refine ⟨by omega, by omega, ?_, by simp, ?_, ?_⟩
        · intro k hk
          exact absurd hk (by omega)
        · intro hok
          exact absurd hok (by simp)
        · intro e he
          obtain rfl : FetchError.apiError status = e := Except.error.inj he
          refine ⟨by simp [hr, outcomeError], ?_⟩
          rw [Decidable.not_and_iff_or_not] at hcond
          rcases hcond with hcond | hcond
          · right
            simp [hr, isRetryableOutcome]
            omega
          · left
            omega
    | timeoutAbort =>
      dsimp only
      refine ⟨by omega, by omega, ?_, by simp, ?_, ?_⟩
      · intro k hk
        exact absurd hk (by omega)
      · intro hok
        exact absurd hok (by simp)
      · intro e he
        obtain rfl : FetchError.timeout = e := Except.error.inj he
        refine ⟨by simp [hr, outcomeError], Or.inr (by simp [hr, isRetryableOutcome])⟩
    | networkError =>
      dsimp only
      by_cases hcond : rc < SC_MAX_RETRIES
      · rw [dif_pos hcond]
        dsimp only
        obtain ⟨ih1, ih2, ih3, ih4, ih5, ih6⟩ := ih (rc + 1) (by omega) (by omega)
        refine ⟨by omega, by omega, ?_, ?_, ?_, ?_⟩
        · intro k hk
          cases k with
          | zero =>
            simp [hr, isRetryableOutcome]
          | succ j =>
            have := ih3 j (by omega)
            have hidx : rc + 1 + j = rc + (j + 1) := by omega
            rw [hidx] at this
            exact this
        · rw [ih4]
          have ha : (fetchWithRetry responses (rc + 1)).attempts + 1 - 1
              = ((fetchWithRetry responses (rc + 1)).attempts - 1) + 1 := by omega
          rw [ha]
          rw [show (2 : Nat) ^ rc * SC_RETRY_BASE_DELAY_MS
              = 2 ^ (rc + 0) * SC_RETRY_BASE_DELAY_MS from by rw [Nat.add_zero]]
          rw [show (fun k => 2 ^ (rc + 1 + k) * SC_RETRY_BASE_DELAY_MS)
              = (fun k => 2 ^ (rc + (k + 1)) * SC_RETRY_BASE_DELAY_MS) from
            funext fun k => by rw [show rc + 1 + k = rc + (k + 1) from by omega]]
          exact range_map_shift (fun k => 2 ^ (rc + k) * SC_RETRY_BASE_DELAY_MS) _
        · intro hok
          have := ih5 hok
          have hidx : rc + ((fetchWithRetry responses (rc + 1)).attempts + 1 - 1)
              = rc + 1 + ((fetchWithRetry responses (rc + 1)).attempts - 1) := by omega
          rw [hidx]
          exact this
        · intro e he
          obtain ⟨he1, he2⟩ := ih6 e he
          have hidx : rc + ((fetchWithRetry responses (rc + 1)).attempts + 1 - 1)
              = rc + 1 + ((fetchWithRetry responses (rc + 1)).attempts - 1) := by omega
          rw [hidx]
          refine ⟨he1, ?_⟩
          rcases he2 with he2 | he2
          · left; omega
          · right; exact he2
      · rw [dif_neg hcond]
        dsimp only
        refine ⟨by omega, by omega, ?_, by simp, ?_, ?_⟩
        · intro k hk
          exact absurd hk (by omega)
        · intro hok
          exact absurd hok (by simp)
        · intro e he
          obtain rfl : FetchError.network = e := Except.error.inj he
          refine ⟨by simp [hr, outcomeError], Or.inl (by omega)⟩

/-- Claim C8: for every sequence of upstream responses, `fetchWithRetry`
starting at retry count 0 terminates after at most SC_MAX_RETRIES + 1 = 3
attempts; every attempt before the last was retried only because it was an
HTTP 5xx or a network failure, with a wait of 2 ^ retryCount × 500 ms before
each retry; a success is the last attempt's outcome, and a surfaced error is
the typed error of the last attempt's outcome, reached either because the
retries were exhausted or because the outcome was not retryable (4xx or
timeout). -/
theorem C8_retry_bounded_and_policy :
    ∀ responses : Nat → UpstreamOutcome,
      (fetchWithRetry responses 0).attempts ≤ SC_MAX_RETRIES + 1 ∧
      SC_MAX_RETRIES + 1 = 3 ∧
      (∀ k, k + 1 < (fetchWithRetry responses 0).attempts →
        isRetryableOutcome (responses k) = true) ∧
      ((fetchWithRetry responses 0).delays
        = (List.range ((fetchWithRetry responses 0).attempts - 1)).map
            (fun k => 2 ^ k * SC_RETRY_BASE_DELAY_MS)) ∧
      ((fetchWithRetry responses 0).result = .ok () →
        responses ((fetchWithRetry responses 0).attempts - 1) = .success) ∧
      (∀ e, (fetchWithRetry responses 0).result = .error e →
        outcomeError (responses ((fetchWithRetry responses 0).attempts - 1)) = some e ∧
          ((fetchWithRetry responses 0).attempts = SC_MAX_RETRIES + 1 ∨
            isRetryableOutcome (responses ((fetchWithRetry responses 0).attempts - 1))
              = false)) := by
  intro responses
  obtain ⟨h1, h2, h3, h4, h5, h6⟩ :=
    fetchWithRetry_spec responses (SC_MAX_RETRIES + 1) 0 (by omega) (by omega)
  refine ⟨by omega, rfl, ?_, ?_, ?_, ?_⟩
  · intro k hk
    have := h3 k hk
    rwa [Nat.zero_add] at this
  · rw [h4]
    apply List.map_congr_left
    intro a _
    rw [Nat.zero_add]
  · intro hok
    have := h5 hok
    rwa [Nat.zero_add] at this
  · intro e he
    obtain ⟨he1, he2⟩ := h6 e he
    simp only [Nat.zero_add] at he1 he2
    refine ⟨he1, ?_⟩
    rcases he2 with he2 | he2
    · left
      exact he2
    · right
      exact he2

/-- Witness for C8: three straight HTTP 503 responses exhaust the retries and
surface the typed API error of the last attempt. -/
theorem C8_retry_bounded_and_policy_witness :
    (fetchWithRetry (fun _ => UpstreamOutcome.httpError 503) 0).attempts
      ≤ SC_MAX_RETRIES + 1 ∧
    (outcomeError ((fun _ => UpstreamOutcome.httpError 503)
        ((fetchWithRetry (fun _ => UpstreamOutcome.httpError 503) 0).attempts - 1))
      = some (FetchError.apiError 503)) := by
  have h := C8_retry_bounded_and_policy (fun _ => UpstreamOutcome.httpError 503)
  refine ⟨h.1, ?_⟩
  exact (h.2.2.2.2.2 (FetchError.apiError 503)
    (by simp [fetchWithRetry, SC_MAX_RETRIES])).1
